import Mathlib

/-!
Verification of the AppScale tools deployment orchestration core.

Shallow embedding of the relevant parts of
`src/appscale/tools/agents/azure_agent.py` (class `AzureAgent`) and
`src/appscale/tools/appscale_tools.py` (class `AppScaleTools`).

Modelling conventions:
* The Azure provider is modelled as an explicit `CloudState` record: each
  collection (public IP addresses, network interfaces, virtual machines,
  virtual networks) is a list held in creation order, and a provider
  listing call returns the records of a collection in that order.
* Provider-assigned values (haikunated resource names, dynamically
  allocated public and private addresses, completion-predicate answers of
  long-running operations) are supplied as function parameters, one value
  per machine index or per poll tick.
* Wall-clock time in the polling loops is idealized: each iteration of a
  loop costs exactly one `time.sleep(SLEEP_TIME)` and the checks
  themselves are instantaneous, so the elapsed time after `k` sleeps is
  `SLEEP_TIME * k` seconds.
* Remote mutations performed by an operation are recorded as an explicit
  list of actions, so "no remote mutation is performed" is expressed as
  the absence of such a list in the error outcome.
-/

namespace AzureAgent

/-- `AzureAgent.SLEEP_TIME` (azure_agent.py line 123): seconds slept while
polling for Azure resources to get created/updated. -/
def SLEEP_TIME : Nat := 10

/-- `AzureAgent.MAX_SLEEP_TIME` (azure_agent.py line 127): maximum seconds
to wait for Azure resources to get created/updated. -/
def MAX_SLEEP_TIME : Nat := 60

/-- `AzureAgent.MAX_VM_CREATION_TIME` (azure_agent.py line 131): maximum
seconds passed to the delete poller for a virtual machine. -/
def MAX_VM_CREATION_TIME : Nat := 240

/-- `AzureAgent.DEFAULT_RESOURCE_GROUP` (azure_agent.py line 73). -/
def DEFAULT_RESOURCE_GROUP : String := "appscalegroup"

/-- `AzureAgent.DEFAULT_STORAGE_ACCT` (azure_agent.py line 70). -/
def DEFAULT_STORAGE_ACCT : String := "appscalestorage"

/-- The provider-side state of one Azure resource group, in creation
order.  `publicIps` holds (resource name, assigned address) pairs, `nics`
holds (resource name, private addresses of its ip_configurations) pairs,
`vms` holds virtual-machine names, `vnets` virtual-network names. -/
structure CloudState where
  publicIps : List (String × String)
  nics : List (String × List String)
  vms : List String
  vnets : List String
deriving DecidableEq

/-- A fresh resource group with no resources, as produced by
`create_resource_group` for a new deployment. -/
def emptyCloudState : CloudState := ⟨[], [], [], []⟩

/-- `AzureAgent.create_virtual_network` (azure_agent.py lines 644-668):
`virtual_networks.create_or_update` on the shared network name; creating
an already-existing network leaves the listing unchanged. -/
def create_virtual_network (name : String) (s : CloudState) : CloudState :=
  if s.vnets.contains name then s else { s with vnets := s.vnets ++ [name] }

/-- `AzureAgent.create_network_interface` (azure_agent.py lines 670-704):
creates the public IP address resource named `ipName` (its dynamic
address, assigned by the provider, is `publicAddr`) and then the network
interface named `interfaceName` with a single ip_configuration whose
dynamic private address is `privateAddr`.  Names are fresh haikunated
names, so each call appends new records. -/
def create_network_interface (interfaceName ipName : String)
    (publicAddr privateAddr : String) (s : CloudState) : CloudState :=
  { s with publicIps := s.publicIps ++ [(ipName, publicAddr)],
           nics := s.nics ++ [(interfaceName, [privateAddr])] }

/-- The state effect of `AzureAgent.create_virtual_machine`
(azure_agent.py lines 284-343): `virtual_machines.create_or_update` under
a fresh haikunated name appends one machine record.  (The subsequent
wait-for-address loop of lines 345-355 is modelled separately by
`waitIPAux` below; it mutates nothing.) -/
def create_virtual_machine (vmName : String) (s : CloudState) : CloudState :=
  { s with vms := s.vms ++ [vmName] }

/-- The nested loop of `AzureAgent.describe_instances` (azure_agent.py
lines 239-242): for each network interface, append the private address of
each of its ip_configurations. -/
def privateIpsOfNics : List (String × List String) → List String
  | [] => []
  | p :: rest => p.2 ++ privateIpsOfNics rest

/-- `AzureAgent.describe_instances` (azure_agent.py lines 214-247):
lists the resource group and returns
`(public_ips, private_ips, instance_ids)`. -/
def describe_instances (s : CloudState) : List String × List String × List String :=
  (s.publicIps.map Prod.snd, privateIpsOfNics s.nics, s.vms)

/-- One iteration of the creation loop of `AzureAgent.run_instances`
(azure_agent.py lines 272-279): haikunate a fresh name `names i`, create
the network interface (and its public IP) under that name, then create
the virtual machine under the same name. -/
def provisionOne (names pubIp privIp : Nat → String) (s : CloudState) (i : Nat) :
    CloudState :=
  create_virtual_machine (names i)
    (create_network_interface (names i) (names i) (pubIp i) (privIp i) s)

/-- `AzureAgent.run_instances` (azure_agent.py lines 249-282): creates the
shared virtual network, runs the creation loop `count` times, then calls
`describe_instances` and returns `(instance_ids, public_ips, private_ips)`
together with the resulting provider state. -/
def run_instances (count : Nat) (group : String) (names pubIp privIp : Nat → String)
    (s : CloudState) : (List String × List String × List String) × CloudState :=
  let s1 := create_virtual_network group s
  let s2 := (List.range count).foldl (provisionOne names pubIp privIp) s1
  let d := describe_instances s2
  ((d.2.2, d.1, d.2.1), s2)

/-- The wait-for-address loop at the end of
`AzureAgent.create_virtual_machine` (azure_agent.py lines 345-355),
instrumented with fuel.  `ipAt k` is what
`network_client.public_ip_addresses.get(...).ip_address` returns at the
`k`-th poll.  The source loop is `while True:` — it breaks only when an
address is present, and otherwise sleeps `SLEEP_TIME` and polls again;
there is no timeout branch.  `none` as a result means the loop is still
running after `fuel` polls. -/
def waitIPAux (ipAt : Nat → Option String) : Nat → Nat → Option String
  | _, 0 => none
  | k, fuel + 1 =>
    match ipAt k with
    | some ip => some ip
    | none => waitIPAux ipAt (k + 1) fuel

/-- Termination of the wait-for-address loop of azure_agent.py lines
345-355 for the poll-answer sequence `ipAt`: some finite number of polls
makes the loop break. -/
def waitIPLoopTerminates (ipAt : Nat → Option String) : Prop :=
  ∃ fuel, (waitIPAux ipAt 0 fuel).isSome

/-- The shared shape of the two polling loops
`AzureAgent.sleep_until_delete_operation_done` (azure_agent.py lines
405-426) and `AzureAgent.sleep_until_update_operation_done` (lines
706-723): check `result.done()` at poll tick `k`; if done, exit through
the loop condition (`true`); otherwise sleep `SLEEP_TIME` seconds and, if
the total sleep time now exceeds `maxSleep`, log the timeout and `break`
(`false`).  Returns the exit kind together with the number of sleeps
performed, so the elapsed time at exit is `SLEEP_TIME *` that count. -/
def pollOperation (done : Nat → Bool) (maxSleep : Nat) (k : Nat) : Bool × Nat :=
  if done k then (true, k)
  else if maxSleep < SLEEP_TIME * (k + 1) then (false, k + 1)
  else pollOperation done maxSleep (k + 1)
termination_by maxSleep + SLEEP_TIME - SLEEP_TIME * k
decreasing_by
  simp only [SLEEP_TIME] at *
  omega

/-- `AzureAgent.sleep_until_delete_operation_done` (azure_agent.py lines
405-426), entered with zero elapsed time. -/
def sleep_until_delete_operation_done (done : Nat → Bool) (maxSleep : Nat) :
    Bool × Nat :=
  pollOperation done maxSleep 0

/-- `AzureAgent.sleep_until_update_operation_done` (azure_agent.py lines
706-723): the same loop with the bound fixed to `MAX_SLEEP_TIME`. -/
def sleep_until_update_operation_done (done : Nat → Bool) : Bool × Nat :=
  pollOperation done MAX_SLEEP_TIME 0

/-- `AzureAgent.delete_virtual_machine` (azure_agent.py lines 391-403):
issues the delete and polls it with bound `MAX_VM_CREATION_TIME`. -/
def delete_virtual_machine (done : Nat → Bool) : Bool × Nat :=
  sleep_until_delete_operation_done done MAX_VM_CREATION_TIME

/-- A remote mutation performed by `configure_instance_security` or its
callee `create_resource_group`, in execution order. -/
inductive SecAction
  | generateKey
  | createGroup
  | createStorageAccount
  | registerProvider (ns : String)
deriving DecidableEq

/-- `AzureAgent.create_resource_group` (azure_agent.py lines 725-775):
registers the storage provider, then either creates the resource group
and a storage account (when the `does_exist` flag is false), or reuses
the group and creates the storage account only when it is not already
listed under the group. -/
def create_resource_group (doesExist : Bool) (storageAccount : String)
    (existingAccts : List String) : List SecAction :=
  SecAction.registerProvider "Microsoft.Storage" ::
    (if !doesExist then [SecAction.createGroup, SecAction.createStorageAccount]
     else if existingAccts.contains storageAccount then []
     else [SecAction.createStorageAccount])

/-- `AzureAgent.configure_instance_security` (azure_agent.py lines
173-212): if the keyname's private or public key file already exists
locally, raise `AgentRuntimeException` before generating any key material
and before any remote mutation; otherwise generate the RSA key, create
the resource group (and storage), and register the compute and network
providers, in that order. -/
def configure_instance_security (privateKeyExists publicKeyExists doesExist : Bool)
    (storageAccount : String) (existingAccts : List String) :
    Except String (List SecAction) :=
  if privateKeyExists || publicKeyExists then
    Except.error "SSH key already found locally - please use a different keyname."
  else
    Except.ok (SecAction.generateKey ::
      (create_resource_group doesExist storageAccount existingAccts ++
        [SecAction.registerProvider "Microsoft.Compute",
         SecAction.registerProvider "Microsoft.Network"]))

/-- The fields of the parameter dict built by
`AzureAgent.get_params_from_args` that the resource-group logic reads. -/
structure AzureParams where
  resource_group : String
  storage_account : String
  does_exist : Bool
deriving DecidableEq

/-- Python truthiness of an optional string argument: `not args[...]` is
true when the argument is absent (`None`) or the empty string. -/
def falsyStr : Option String → Bool
  | none => true
  | some s => s.isEmpty

/-- Python `args[...] in rg_names` for an optional string argument:
`None` is never an element of a list of names; a string is tested by
membership. -/
def optMem : Option String → List String → Bool
  | none, _ => false
  | some s, l => l.contains s

/-- The resource-group logic of `AzureAgent.get_params_from_args`
(azure_agent.py lines 558-570): start with `does_exist = False`;
substitute the default resource group when none was passed; set
`does_exist` by membership of the ORIGINAL argument in the account's
resource-group names; substitute the default storage account when none
was passed. -/
def get_params_from_args (argResourceGroup argStorageAccount : Option String)
    (rgNames : List String) : AzureParams :=
  { resource_group :=
      if falsyStr argResourceGroup then DEFAULT_RESOURCE_GROUP
      else argResourceGroup.getD ""
  , storage_account :=
      if falsyStr argStorageAccount then DEFAULT_STORAGE_ACCT
      else argStorageAccount.getD ""
  , does_exist := optMem argResourceGroup rgNames }

end AzureAgent

namespace AppScaleTools

/-- One parsed read of the remote upgrade status JSON file
(`UpgradeStatus` in the spec).  A field is `none` when the parsed JSON
object lacks the corresponding key. -/
structure UpgradeStatus where
  status : Option String
  message : Option String
deriving DecidableEq

/-- A log emission of `run_upgrade_script`: `AppScaleLogger.log` for an
in-progress message, `AppScaleLogger.success` for completion,
`AppScaleLogger.warn` for a terminal error. -/
inductive LogEvent
  | progress (msg : String)
  | success (msg : String)
  | warn (msg : String)
deriving DecidableEq

/-- How the polling loop of `run_upgrade_script` ends: normal completion,
an exception carrying a message, or still polling when the supplied
finite sequence of status reads ran out. -/
inductive UpgradeOutcome
  | completed
  | raised (msg : String)
  | stillPolling
deriving DecidableEq

/-- The status-polling loop of `AppScaleTools.run_upgrade_script`
(appscale_tools.py lines 871-903) over a finite sequence of status reads,
carrying `last_message` (initially `None`).  Per read: raise
`'Invalid status log format'` when the `status` or `message` key is
absent; on `complete` log success and exit; on `inProgress` log the
message only when it differs from `last_message` (updating
`last_message`), sleep, and poll again; on any other status warn and
raise with the read's message.  Returns the emitted log events in order
together with the loop outcome. -/
def run_upgrade_script :
    List UpgradeStatus → Option String → List LogEvent × UpgradeOutcome
  | [], _ => ([], UpgradeOutcome.stillPolling)
  | r :: rest, last =>
    match r.status, r.message with
    | some st, some msg =>
      if st = "complete" then ([LogEvent.success msg], UpgradeOutcome.completed)
      else if st = "inProgress" then
        if some msg ≠ last then
          (LogEvent.progress msg :: (run_upgrade_script rest (some msg)).1,
            (run_upgrade_script rest (some msg)).2)
        else run_upgrade_script rest last
      else ([LogEvent.warn msg], UpgradeOutcome.raised msg)
    | _, _ => ([], UpgradeOutcome.raised "Invalid status log format")

/-- The in-progress messages of a log, in emission order. -/
def progressMsgs : List LogEvent → List String
  | [] => []
  | LogEvent.progress m :: rest => m :: progressMsgs rest
  | _ :: rest => progressMsgs rest

/-- `AppScaleTools.run_bootstrap` (appscale_tools.py lines 963-974):
runs the bootstrap command over SSH on one node; on `ShellException` the
node's address is appended to the shared error list, otherwise the list
is unchanged.  `bootstrapOk ip` tells whether the SSH bootstrap on `ip`
succeeds. -/
def run_bootstrap (ip : String) (bootstrapOk : String → Bool)
    (error_ips : List String) : List String :=
  if bootstrapOk ip then error_ips else error_ips ++ [ip]

/-- `AppScaleTools.upgrade_appscale` (appscale_tools.py lines 936-961):
spawns one `run_bootstrap` worker per node address, joins every worker,
and only then reads the shared error list; the second component is the
value of `not error_ips`, which decides whether `run_upgrade_script` is
invoked (step 4).  The parallel fan-out is modelled sequentially: the
error list is append-only during the fan-out and read only after all
workers have joined, so its joined contents equal the sequential fold. -/
def upgrade_appscale (ips : List String) (bootstrapOk : String → Bool) :
    List String × Bool :=
  let error_ips := ips.foldl (fun acc ip => run_bootstrap ip bootstrapOk acc) []
  (error_ips, error_ips.isEmpty)

/-- The message raised by `AppScaleTools.upgrade` (appscale_tools.py
lines 804-808) when a newer tools version is published. -/
def newerVersionMessage (latest : String) : String :=
  "There is a newer version (" ++ latest ++ ") of appscale-tools available. " ++
    "Please upgrade the tools package before running appscale upgrade."

/-- Python's `str.lower()` applied to an operator prompt answer,
character-wise (ASCII). -/
def pyLower (s : String) : String := String.mk (s.data.map Char.toLower)

/-- The version pre-flight of `AppScaleTools.upgrade` (appscale_tools.py
lines 790-808).  `fetched` is `some latest` when `latest_tools_version()`
returns and `none` when it raises.  On a fetch failure: in test mode
continue without prompting; otherwise prompt, and cancel unless the
lower-cased response is `y` or `yes` (so empty input cancels).  After the
fetch block, abort when the (successfully fetched) latest version is
strictly greater than the local one; on the failure path `latest_tools`
was left equal to the local version, so that comparison never aborts.
The `<` on version strings is lexicographic, as Python's `>` on `str`. -/
def upgrade_version_check (localVersion : String) (fetched : Option String)
    (test : Bool) (response : String) : Except String Unit :=
  match fetched with
  | some latest =>
    if localVersion < latest then Except.error (newerVersionMessage latest)
    else Except.ok ()
  | none =>
    if test then Except.ok ()
    else if pyLower response = "y" ∨ pyLower response = "yes" then Except.ok ()
    else Except.error "Cancelled AppScale upgrade."

end AppScaleTools

/-! ## Helper lemmas -/

/-- The creation loop of `run_instances` appends, to each provider
collection, one record per created machine, in creation order. -/
theorem provision_foldl_spec (names pubIp privIp : Nat → String) :
    ∀ (l : List Nat) (s : AzureAgent.CloudState),
      l.foldl (AzureAgent.provisionOne names pubIp privIp) s =
        ⟨s.publicIps ++ l.map (fun i => (names i, pubIp i)),
         s.nics ++ l.map (fun i => (names i, [privIp i])),
         s.vms ++ l.map names, s.vnets⟩ := by
  intro l
  induction l with
  | nil => intro s; simp
  | cons i t ih =>
    intro s
    rw [List.foldl_cons, ih]
    simp [AzureAgent.provisionOne, AzureAgent.create_network_interface,
      AzureAgent.create_virtual_machine]

/-- Flattening the per-interface ip_configurations of freshly created
interfaces yields the private addresses in creation order. -/
theorem privateIpsOfNics_map (names privIp : Nat → String) :
    ∀ l : List Nat,
      AzureAgent.privateIpsOfNics (l.map (fun i => (names i, [privIp i]))) =
        l.map privIp := by
  intro l
  induction l with
  | nil => rfl
  | cons i t ih => simp [AzureAgent.privateIpsOfNics, ih]

/-! ## C1 -/

/-- C1: for every `count ≥ 1`, `AzureAgent.run_instances` started in a
fresh resource group returns three sequences `(instanceIds, publicIps,
privateIps)` that are order-correlated: all three are the per-machine
values of the creation loop in the same (creation) order, so index `i` of
each sequence belongs to the machine created in iteration `i`, and the
orchestrator's bring-up (appscale_tools.py lines 502-512) may attach them
positionally onto the resolved nodes. -/
theorem run_instances_positionally_correlated (count : Nat) (group : String)
    (names pubIp privIp : Nat → String) (h : 1 ≤ count) :
    (AzureAgent.run_instances count group names pubIp privIp
        AzureAgent.emptyCloudState).1 =
      ((List.range count).map names, (List.range count).map pubIp,
        (List.range count).map privIp) := by
  have h0 : AzureAgent.create_virtual_network group AzureAgent.emptyCloudState =
      ⟨[], [], [], [group]⟩ := rfl
  have hf := provision_foldl_spec names pubIp privIp (List.range count)
    (⟨[], [], [], [group]⟩ : AzureAgent.CloudState)
  have hm := privateIpsOfNics_map names privIp (List.range count)
  simp only [AzureAgent.run_instances, AzureAgent.describe_instances, h0, hf]
  simp [hm, List.map_map, Function.comp]

/-- Witness for C1 at `count = 2` with concrete haikunated names and
provider-assigned addresses. -/
theorem run_instances_positionally_correlated_witness :
    1 ≤ 2 ∧
      (AzureAgent.run_instances 2 "appscaleazure"
          (fun i => "vm" ++ toString i) (fun i => "pub" ++ toString i)
          (fun i => "priv" ++ toString i) AzureAgent.emptyCloudState).1 =
        ((List.range 2).map (fun i => "vm" ++ toString i),
          (List.range 2).map (fun i => "pub" ++ toString i),
          (List.range 2).map (fun i => "priv" ++ toString i)) :=
  ⟨by decide,
    run_instances_positionally_correlated 2 "appscaleazure"
      (fun i => "vm" ++ toString i) (fun i => "pub" ++ toString i)
      (fun i => "priv" ++ toString i) (by decide)⟩

/-! ## C2 -/

/-- If the provider never assigns an address, every unfolding of the
wait-for-address loop of azure_agent.py lines 345-355 is still running. -/
theorem waitIPAux_allNone : ∀ (fuel k : Nat),
    AzureAgent.waitIPAux (fun _ => none) k fuel = none := by
  intro fuel
  induction fuel with
  | zero => intro k; rfl
  | succ f ih => intro k; simpa [AzureAgent.waitIPAux] using ih (k + 1)

/-- C2 counterexample: the claim asserts a bounded per-machine wait after
which `create_virtual_machine` logs a timeout and still returns, for
every sequence of provider responses.  The loop of azure_agent.py lines
345-355 is `while True:` with no timeout branch, so for the concrete
response sequence in which the machine never receives an address the loop
never terminates: no number of polls makes it break. -/
theorem create_vm_wait_can_loop_forever :
    ¬ AzureAgent.waitIPLoopTerminates (fun _ => none) := by
  rintro ⟨fuel, h⟩
  rw [waitIPAux_allNone fuel 0] at h
  simp at h

/-- If some poll at index `k0 + d` reports an address, the loop entered at
index `k0` with more than `d` polls of fuel has broken out. -/
theorem waitIPAux_some_of_eventually (ipAt : Nat → Option String) :
    ∀ (d k0 : Nat), (ipAt (k0 + d)).isSome →
      (AzureAgent.waitIPAux ipAt k0 (d + 1)).isSome := by
  intro d
  induction d with
  | zero =>
    intro k0 h
    rcases hk : ipAt k0 with _ | ip
    · rw [Nat.add_zero, hk] at h; simp at h
    · simp [AzureAgent.waitIPAux, hk]
  | succ d ih =>
    intro k0 h
    rcases hk : ipAt k0 with _ | ip
    · have : (ipAt ((k0 + 1) + d)).isSome := by
        have he : (k0 + 1) + d = k0 + (d + 1) := by omega
        rw [he]; exact h
      simpa [AzureAgent.waitIPAux, hk] using ih (k0 + 1) this
    · simp [AzureAgent.waitIPAux, hk]

/-- If the loop has broken out of some unfolding, some poll reported an
address. -/
theorem waitIPAux_eventually_of_some (ipAt : Nat → Option String) :
    ∀ (fuel k0 : Nat), (AzureAgent.waitIPAux ipAt k0 fuel).isSome →
      ∃ j, (ipAt j).isSome := by
  intro fuel
  induction fuel with
  | zero => intro k0 h; simp [AzureAgent.waitIPAux] at h
  | succ f ih =>
    intro k0 h
    rcases hk : ipAt k0 with _ | ip
    · rw [show AzureAgent.waitIPAux ipAt k0 (f + 1) =
          AzureAgent.waitIPAux ipAt (k0 + 1) f by simp [AzureAgent.waitIPAux, hk]] at h
      exact ih (k0 + 1) h
    · exact ⟨k0, by simp [hk]⟩

/-- C2 amended: `create_virtual_machine` polls the machine's public IP
address every `SLEEP_TIME` seconds with NO upper bound; the wait loop of
azure_agent.py lines 345-355 terminates exactly when the provider
eventually reports an assigned address, so `run_instances` need not
terminate when some machine never receives one. -/
theorem create_vm_wait_terminates_iff_address_assigned
    (ipAt : Nat → Option String) :
    AzureAgent.waitIPLoopTerminates ipAt ↔ ∃ k, (ipAt k).isSome := by
  constructor
  · rintro ⟨fuel, h⟩
    exact waitIPAux_eventually_of_some ipAt fuel 0 h
  · rintro ⟨k, hk⟩
    exact ⟨k + 1, waitIPAux_some_of_eventually ipAt k 0 (by simpa using hk)⟩

/-! ## C3 -/

/-- Soundness of the timeout exit of the delete/update polling loop: if
it exits through the `break`, the elapsed sleep time strictly exceeds the
bound and no poll within the budget ever reported done. -/
theorem pollOperation_false_sound (done : Nat → Bool) (m : Nat) :
    ∀ (fuel k : Nat), m + 10 ≤ 10 * k + fuel →
      ∀ s, AzureAgent.pollOperation done m k = (false, s) →
        m < 10 * s ∧ ∀ j, k ≤ j → 10 * j ≤ m → done j = false := by
  intro fuel
  induction fuel with
  | zero =>
    intro k hk s hpoll
    unfold AzureAgent.pollOperation at hpoll
    rw [show AzureAgent.SLEEP_TIME = 10 from rfl] at hpoll
    by_cases hd : done k = true
    · simp [hd] at hpoll
    · have hlt : m < 10 * (k + 1) := by omega
      simp [hd, hlt] at hpoll
      constructor
      · omega
      · intro j hj hjm
        exact absurd hjm (by omega)
  | succ f ih =>
    intro k hk s hpoll
    unfold AzureAgent.pollOperation at hpoll
    rw [show AzureAgent.SLEEP_TIME = 10 from rfl] at hpoll
    by_cases hd : done k = true
    · simp [hd] at hpoll
    · by_cases hlt : m < 10 * (k + 1)
      · simp [hd, hlt] at hpoll
        constructor
        · omega
        · intro j hj hjm
          rcases Nat.eq_or_lt_of_le hj with hkj | hkj
          · rw [← hkj]; exact Bool.not_eq_true _ |>.mp hd
          · exact absurd hjm (by omega)
      · simp [hd, hlt] at hpoll
        have := ih (k + 1) (by omega) s hpoll
        refine ⟨this.1, fun j hj hjm => ?_⟩
        rcases Nat.eq_or_lt_of_le hj with hkj | hkj
        · rw [← hkj]; exact Bool.not_eq_true _ |>.mp hd
        · exact this.2 j hkj hjm

/-- Completeness of the timeout exit: if no poll within the budget
reports done, the loop exits through the `break`. -/
theorem pollOperation_false_complete (done : Nat → Bool) (m : Nat) :
    ∀ (fuel k : Nat), m + 10 ≤ 10 * k + fuel → 10 * k ≤ m →
      (∀ j, k ≤ j → 10 * j ≤ m → done j = false) →
      (AzureAgent.pollOperation done m k).1 = false := by
  intro fuel
  induction fuel with
  | zero =>
    intro k hk hkm _
    exact absurd hkm (by omega)
  | succ f ih =>
    intro k hk hkm hnone
    unfold AzureAgent.pollOperation
    rw [show AzureAgent.SLEEP_TIME = 10 from rfl]
    have hd : done k = false := hnone k (Nat.le_refl k) hkm
    by_cases hlt : m < 10 * (k + 1)
    · simp [hd, hlt]
    · simp only [hd, Bool.false_eq_true, if_false, hlt]
      exact ih (k + 1) (by omega) (by omega)
        (fun j hj hjm => hnone j (by omega) hjm)

/-- Soundness of the done exit: if the loop exits through its condition
with `j` sleeps performed, the predicate first reported done at tick `j`,
within the wait budget. -/
theorem pollOperation_true_sound (done : Nat → Bool) (m : Nat) :
    ∀ (fuel k : Nat), m + 10 ≤ 10 * k + fuel → 10 * k ≤ m →
      ∀ j, AzureAgent.pollOperation done m k = (true, j) →
        done j = true ∧ 10 * j ≤ m ∧ ∀ i, k ≤ i → i < j → done i = false := by
  intro fuel
  induction fuel with
  | zero =>
    intro k hk hkm _ _
    exact absurd hkm (by omega)
  | succ f ih =>
    intro k hk hkm j hpoll
    unfold AzureAgent.pollOperation at hpoll
    rw [show AzureAgent.SLEEP_TIME = 10 from rfl] at hpoll
    by_cases hd : done k = true
    · simp [hd] at hpoll
      rw [← hpoll]
      exact ⟨hd, hkm, fun i hi hij => absurd hij (by omega)⟩
    · by_cases hlt : m < 10 * (k + 1)
      · simp [hd, hlt] at hpoll
      · simp [hd, hlt] at hpoll
        obtain ⟨h1, h2, h3⟩ := ih (k + 1) (by omega) (by omega) j hpoll
        refine ⟨h1, h2, fun i hi hij => ?_⟩
        rcases Nat.eq_or_lt_of_le hi with hki | hki
        · rw [← hki]; exact Bool.not_eq_true _ |>.mp hd
        · exact h3 i hki hij

/-- Completeness of the done exit: if the predicate first reports done at
tick `j` and tick `j` is within the wait budget, the loop exits through
its condition after exactly `j` sleeps, without sleeping past that
tick. -/
theorem pollOperation_true_complete (done : Nat → Bool) (m : Nat) :
    ∀ (fuel k j : Nat), m + 10 ≤ 10 * k + fuel → k ≤ j → 10 * j ≤ m →
      done j = true → (∀ i, k ≤ i → i < j → done i = false) →
      AzureAgent.pollOperation done m k = (true, j) := by
  intro fuel
  induction fuel with
  | zero =>
    intro k j hk hkj hjm _ _
    exact absurd hjm (by omega)
  | succ f ih =>
    intro k j hk hkj hjm hdj hmin
    unfold AzureAgent.pollOperation
    rw [show AzureAgent.SLEEP_TIME = 10 from rfl]
    rcases Nat.eq_or_lt_of_le hkj with hkj' | hkj'
    · rw [hkj']
      simp [hdj]
    · have hd : done k = false := hmin k (Nat.le_refl k) hkj'
      have hlt : ¬ m < 10 * (k + 1) := by omega
      simp only [hd, Bool.false_eq_true, if_false, hlt, if_false]
      exact ih (k + 1) j (by omega) (by omega) hjm hdj
        (fun i hi hij => hmin i (by omega) hij)

/-- C3: the polling helper (`sleep_until_delete_operation_done`,
azure_agent.py lines 405-426, and `sleep_until_update_operation_done`,
lines 706-723) sleeps a fixed `SLEEP_TIME = 10` seconds between checks;
it exits with `false` exactly when no check within the wait budget
reports done — and then the elapsed sleep time strictly exceeds
`maxSleep` — and exits with `true` after exactly `j` sleeps iff the
completion predicate first reports done at tick `j` within the budget,
never sleeping past that tick.  The update poller is the same loop with
the bound fixed to `MAX_SLEEP_TIME = 60` (network/storage create/update),
and `delete_virtual_machine` polls machine deletion with bound
`MAX_VM_CREATION_TIME = 240`. -/
theorem azure_operation_poller_contract (done : Nat → Bool) (m : Nat) :
    AzureAgent.SLEEP_TIME = 10 ∧ AzureAgent.MAX_SLEEP_TIME = 60 ∧
    AzureAgent.MAX_VM_CREATION_TIME = 240 ∧
    AzureAgent.sleep_until_update_operation_done done =
      AzureAgent.sleep_until_delete_operation_done done 60 ∧
    AzureAgent.delete_virtual_machine done =
      AzureAgent.sleep_until_delete_operation_done done 240 ∧
    ((AzureAgent.sleep_until_delete_operation_done done m).1 = false ↔
      ∀ j, 10 * j ≤ m → done j = false) ∧
    (∀ s, AzureAgent.sleep_until_delete_operation_done done m = (false, s) →
      m < 10 * s) ∧
    (∀ j, AzureAgent.sleep_until_delete_operation_done done m = (true, j) ↔
      (done j = true ∧ 10 * j ≤ m ∧ ∀ i, i < j → done i = false)) := by
  refine ⟨rfl, rfl, rfl, rfl, rfl, ⟨?_, ?_⟩, ?_, fun j => ⟨?_, ?_⟩⟩
  · intro hfalse j hjm
    rcases hres : AzureAgent.sleep_until_delete_operation_done done m with ⟨b, s⟩
    rw [hres] at hfalse
    simp at hfalse
    rw [hfalse] at hres
    exact (pollOperation_false_sound done m (m + 10) 0 (by omega) s hres).2 j
      (Nat.zero_le j) hjm
  · intro hnone
    exact pollOperation_false_complete done m (m + 10) 0 (by omega)
      (by omega) (fun j _ hjm => hnone j hjm)
  · intro s hres
    exact (pollOperation_false_sound done m (m + 10) 0 (by omega) s hres).1
  · intro hres
    obtain ⟨h1, h2, h3⟩ := pollOperation_true_sound done m (m + 10) 0
      (by omega) (by omega) j hres
    exact ⟨h1, h2, fun i hij => h3 i (Nat.zero_le i) hij⟩
  · rintro ⟨h1, h2, h3⟩
    exact pollOperation_true_complete done m (m + 10) 0 j (by omega)
      (Nat.zero_le j) h2 h1 (fun i _ hij => h3 i hij)

/-- Witness for C3: a predicate first done at tick 2 exits with `true`
after 2 sleeps under the 60-second bound; a predicate that is never done
exits with `false`. -/
theorem azure_operation_poller_contract_witness :
    AzureAgent.sleep_until_delete_operation_done (fun k => k == 2) 60 = (true, 2) ∧
    (AzureAgent.sleep_until_delete_operation_done (fun _ => false) 60).1 = false := by
  constructor
  · exact ((azure_operation_poller_contract (fun k => k == 2) 60).2.2.2.2.2.2.2 2).mpr
      ⟨by decide, by decide, by decide⟩
  · exact (azure_operation_poller_contract (fun _ => false) 60).2.2.2.2.2.1.mpr
      (fun j _ => rfl)

/-! ## C4 -/

/-- Starting from any `last_message` state, consecutive in-progress log
emissions of the status-polling loop always carry distinct messages, and
the first emission differs from the remembered `last_message`. -/
theorem progress_chain_aux :
    ∀ (reads : List AppScaleTools.UpgradeStatus) (last : Option String),
      List.Chain' (fun a b : String => a ≠ b)
        (last.toList ++
          AppScaleTools.progressMsgs
            (AppScaleTools.run_upgrade_script reads last).1) := by
  intro reads
  induction reads with
  | nil =>
    intro last
    cases last <;>
      simp [AppScaleTools.run_upgrade_script, AppScaleTools.progressMsgs]
  | cons r rest ih =>
    intro last
    rcases r with ⟨st, msg⟩
    match st, msg with
    | none, _ =>
      cases last <;>
        simp [AppScaleTools.run_upgrade_script, AppScaleTools.progressMsgs]
    | some stv, none =>
      cases last <;>
        simp [AppScaleTools.run_upgrade_script, AppScaleTools.progressMsgs]
    | some stv, some msgv =>
      by_cases hc : stv = "complete"
      · cases last <;>
          simp [AppScaleTools.run_upgrade_script, AppScaleTools.progressMsgs, hc]
      · by_cases hip : stv = "inProgress"
        · by_cases hne : (some msgv : Option String) ≠ last
          · have hgoal := ih (some msgv)
            simp only [Option.toList_some, List.singleton_append] at hgoal
            cases last with
            | none =>
              simpa [AppScaleTools.run_upgrade_script, hc, hip, hne,
                AppScaleTools.progressMsgs] using hgoal
            | some lastv =>
              have hlm : lastv ≠ msgv := by
                intro he
                exact hne (by rw [he])
              have hstep :
                  (AppScaleTools.run_upgrade_script
                      (⟨some stv, some msgv⟩ :: rest) (some lastv)).1 =
                    AppScaleTools.LogEvent.progress msgv ::
                      (AppScaleTools.run_upgrade_script rest (some msgv)).1 := by
                simp [AppScaleTools.run_upgrade_script, hc, hip, hne]
              simp only [Option.toList_some, List.singleton_append, hstep,
                AppScaleTools.progressMsgs]
              exact List.chain'_cons.mpr ⟨hlm, hgoal⟩
          · have hlast : last = some msgv := by
              rcases last with _ | lv
              · exact absurd (by simp) hne
              · push_neg at hne
                rw [hne]
            subst hlast
            simpa [AppScaleTools.run_upgrade_script, hc, hip] using ih (some msgv)
        · cases last <;>
            simp [AppScaleTools.run_upgrade_script, AppScaleTools.progressMsgs,
              hc, hip]

/-- C4: on the read sequence in-progress "step1", in-progress "step1",
in-progress "step2", complete "done", the polling loop of
`AppScaleTools.run_upgrade_script` (appscale_tools.py lines 871-903) logs
"step1" once and "step2" once, then logs success and exits; and for every
read sequence and every remembered `last_message`, an in-progress message
equal to the immediately preceding logged message is never logged a
second time (adjacent in-progress log emissions always differ, and the
first differs from `last_message`). -/
theorem run_upgrade_script_no_duplicate_progress :
    (AppScaleTools.run_upgrade_script
        [⟨some "inProgress", some "step1"⟩, ⟨some "inProgress", some "step1"⟩,
         ⟨some "inProgress", some "step2"⟩, ⟨some "complete", some "done"⟩]
        none =
      ([AppScaleTools.LogEvent.progress "step1",
        AppScaleTools.LogEvent.progress "step2",
        AppScaleTools.LogEvent.success "done"],
        AppScaleTools.UpgradeOutcome.completed)) ∧
    (∀ (reads : List AppScaleTools.UpgradeStatus) (lastLogged : String),
      List.Chain' (fun a b : String => a ≠ b)
        (lastLogged ::
          AppScaleTools.progressMsgs
            (AppScaleTools.run_upgrade_script reads (some lastLogged)).1)) ∧
    (∀ reads : List AppScaleTools.UpgradeStatus,
      List.Chain' (fun a b : String => a ≠ b)
        (AppScaleTools.progressMsgs
          (AppScaleTools.run_upgrade_script reads none).1)) := by
  refine ⟨by decide, fun reads lastLogged => ?_, fun reads => ?_⟩
  · simpa using progress_chain_aux reads (some lastLogged)
  · simpa using progress_chain_aux reads none

/-! ## C5 -/

/-- C5: a status read whose `status` is neither `complete` nor
`inProgress` makes `run_upgrade_script` (appscale_tools.py lines 900-903)
warn with that read's message and raise immediately with the same
message; the remaining reads are never consumed, so no further polling is
performed. -/
theorem run_upgrade_script_error_raises_immediately
    (rest : List AppScaleTools.UpgradeStatus) (last : Option String)
    (st msg : String) (h1 : st ≠ "complete") (h2 : st ≠ "inProgress") :
    AppScaleTools.run_upgrade_script (⟨some st, some msg⟩ :: rest) last =
      ([AppScaleTools.LogEvent.warn msg],
        AppScaleTools.UpgradeOutcome.raised msg) := by
  simp [AppScaleTools.run_upgrade_script, h1, h2]

/-- Witness for C5: the read `{status: "error", message: "disk full"}`
raises "disk full" at once even with further reads pending. -/
theorem run_upgrade_script_error_raises_immediately_witness :
    AppScaleTools.run_upgrade_script
        [⟨some "error", some "disk full"⟩, ⟨some "inProgress", some "later"⟩]
        none =
      ([AppScaleTools.LogEvent.warn "disk full"],
        AppScaleTools.UpgradeOutcome.raised "disk full") :=
  run_upgrade_script_error_raises_immediately
    [⟨some "inProgress", some "later"⟩] none "error" "disk full"
    (by decide) (by decide)

/-! ## C10 -/

/-- C10: on every iteration of the polling loop (i.e. from every
`last_message` state and whatever reads remain), a status read lacking
the `status` key or the `message` key makes `run_upgrade_script` raise
`'Invalid status log format'` (appscale_tools.py lines 887-888) before
interpreting the status value and without logging anything. -/
theorem run_upgrade_script_malformed_raises
    (rest : List AppScaleTools.UpgradeStatus) (last : Option String)
    (r : AppScaleTools.UpgradeStatus)
    (h : r.status = none ∨ r.message = none) :
    AppScaleTools.run_upgrade_script (r :: rest) last =
      ([], AppScaleTools.UpgradeOutcome.raised "Invalid status log format") := by
  rcases r with ⟨st, msg⟩
  rcases h with h | h
  · simp only at h
    subst h
    simp [AppScaleTools.run_upgrade_script]
  · simp only at h
    subst h
    cases st <;> simp [AppScaleTools.run_upgrade_script]

/-- Witness for C10: a read with a `message` but no `status` key raises
the format error even though further reads are pending, mid-loop. -/
theorem run_upgrade_script_malformed_raises_witness :
    AppScaleTools.run_upgrade_script
        [⟨none, some "step3"⟩, ⟨some "complete", some "done"⟩] (some "step2") =
      ([], AppScaleTools.UpgradeOutcome.raised "Invalid status log format") :=
  run_upgrade_script_malformed_raises
    [⟨some "complete", some "done"⟩] (some "step2") ⟨none, some "step3"⟩
    (Or.inl rfl)

/-! ## C6 -/

/-- The bootstrap fan-out only ever appends to the shared error list:
after every node has been processed, the list holds exactly the initial
contents followed by the addresses whose bootstrap failed, in order. -/
theorem run_bootstrap_foldl_spec (bootstrapOk : String → Bool) :
    ∀ (ips acc : List String),
      ips.foldl (fun a ip => AppScaleTools.run_bootstrap ip bootstrapOk a) acc =
        acc ++ ips.filter (fun ip => !(bootstrapOk ip)) := by
  intro ips
  induction ips with
  | nil => intro acc; simp
  | cons ip t ih =>
    intro acc
    rw [List.foldl_cons]
    by_cases h : bootstrapOk ip = true
    · rw [show AppScaleTools.run_bootstrap ip bootstrapOk acc = acc from by
        simp [AppScaleTools.run_bootstrap, h]]
      rw [ih acc]
      simp [List.filter_cons, h]
    · rw [show AppScaleTools.run_bootstrap ip bootstrapOk acc = acc ++ [ip] from by
        simp [AppScaleTools.run_bootstrap, h]]
      rw [ih (acc ++ [ip])]
      simp [List.filter_cons, h]

/-- C6: in `AppScaleTools.upgrade_appscale` (appscale_tools.py lines
936-961) a bootstrap failure on one node is appended to the shared error
list without aborting the sibling per-node SSH operations — after all
workers are joined the error list is exactly the list of failed node
addresses — and the remote upgrade script (step 4) is run iff that list
is empty, i.e. iff the bootstrap succeeded on every node. -/
theorem upgrade_appscale_collects_failures_and_gates_step4
    (ips : List String) (bootstrapOk : String → Bool) :
    (AppScaleTools.upgrade_appscale ips bootstrapOk).1 =
        ips.filter (fun ip => !(bootstrapOk ip)) ∧
    ((AppScaleTools.upgrade_appscale ips bootstrapOk).2 = true ↔
        ∀ ip ∈ ips, bootstrapOk ip = true) := by
  unfold AppScaleTools.upgrade_appscale
  rw [run_bootstrap_foldl_spec bootstrapOk ips []]
  simp [List.isEmpty_iff, List.filter_eq_nil_iff]

/-! ## C7 -/

/-- C7: the version pre-flight of `AppScaleTools.upgrade`
(appscale_tools.py lines 790-808) aborts with an exception whenever the
fetched latest tools version is strictly greater than the local one; when
the version fetch itself fails it prompts, cancelling on any answer whose
lower-casing is not `y`/`yes` — in particular on empty input — and in
test mode it continues without prompting. -/
theorem upgrade_version_preflight_contract
    (localV latest response : String) (test : Bool) :
    (localV < latest →
      AppScaleTools.upgrade_version_check localV (some latest) test response =
        Except.error (AppScaleTools.newerVersionMessage latest)) ∧
    (AppScaleTools.upgrade_version_check localV none false response =
        Except.ok () ↔
      AppScaleTools.pyLower response = "y" ∨
        AppScaleTools.pyLower response = "yes") ∧
    (AppScaleTools.upgrade_version_check localV none false "" =
      Except.error "Cancelled AppScale upgrade.") ∧
    (AppScaleTools.upgrade_version_check localV none true response =
      Except.ok ()) := by
  refine ⟨fun h => ?_, ?_, ?_, ?_⟩
  · simp [AppScaleTools.upgrade_version_check, h]
  · by_cases hr : AppScaleTools.pyLower response = "y" ∨
        AppScaleTools.pyLower response = "yes" <;>
      simp [AppScaleTools.upgrade_version_check, hr]
  · have hy : ¬ (AppScaleTools.pyLower "" = "y" ∨
        AppScaleTools.pyLower "" = "yes") := by decide
    simp [AppScaleTools.upgrade_version_check, hy]
  · simp [AppScaleTools.upgrade_version_check]

/-- Witness for C7: local version 3.4.0 against published 3.5.0 aborts;
a failed version fetch with empty prompt input cancels the upgrade; a
failed fetch in test mode proceeds. -/
theorem upgrade_version_preflight_contract_witness :
    AppScaleTools.upgrade_version_check "3.4.0" (some "3.5.0") false "" =
        Except.error (AppScaleTools.newerVersionMessage "3.5.0") ∧
    AppScaleTools.upgrade_version_check "3.4.0" none false "" =
        Except.error "Cancelled AppScale upgrade." ∧
    AppScaleTools.upgrade_version_check "3.4.0" none true "" = Except.ok () :=
  ⟨(upgrade_version_preflight_contract "3.4.0" "3.5.0" "" false).1
      (by rw [String.lt_iff_toList_lt]; decide),
    (upgrade_version_preflight_contract "3.4.0" "3.5.0" "" false).2.2.1,
    (upgrade_version_preflight_contract "3.4.0" "3.5.0" "" true).2.2.2⟩

/-! ## C8 -/

/-- C8: whenever the keyname's private key file or public key file
already exists locally, `AzureAgent.configure_instance_security`
(azure_agent.py lines 193-200) raises an `AgentRuntimeException` before
generating any key material and before any remote mutation: the outcome
is the bare error, with no `generateKey`, resource-group creation,
provider registration, or storage-account action performed. -/
theorem configure_instance_security_preexisting_key_raises
    (privateKeyExists publicKeyExists doesExist : Bool)
    (storageAccount : String) (existingAccts : List String)
    (h : privateKeyExists = true ∨ publicKeyExists = true) :
    AzureAgent.configure_instance_security privateKeyExists publicKeyExists
        doesExist storageAccount existingAccts =
      Except.error
        "SSH key already found locally - please use a different keyname." := by
  rcases h with h | h <;>
    simp [AzureAgent.configure_instance_security, h]

/-- Witness for C8: a pre-existing public key file alone suffices to
abort before any action. -/
theorem configure_instance_security_preexisting_key_raises_witness :
    AzureAgent.configure_instance_security false true false "appscalestorage"
        [] =
      Except.error
        "SSH key already found locally - please use a different keyname." :=
  configure_instance_security_preexisting_key_raises false true false
    "appscalestorage" [] (Or.inr rfl)

/-! ## C9 -/

/-- C9: `AzureAgent.get_params_from_args` (azure_agent.py lines 558-570)
computes `does_exist` by membership of the ORIGINAL resource-group
argument in the account's resource-group list; when no resource group is
supplied the default name `appscalegroup` is substituted into the
parameters, but the flag stays `false` even when a group named
`appscalegroup` already exists in the account, so
`AzureAgent.create_resource_group` takes the create-new-group-and-storage
path rather than the reuse path. -/
theorem get_params_default_group_keeps_flag_false
    (rgNames : List String) (argStorageAccount : Option String)
    (storageAccount : String) (existingAccts : List String)
    (h : rgNames.contains "appscalegroup" = true) :
    (∀ argRG, (AzureAgent.get_params_from_args argRG argStorageAccount
        rgNames).does_exist = AzureAgent.optMem argRG rgNames) ∧
    (AzureAgent.get_params_from_args none argStorageAccount
        rgNames).resource_group = "appscalegroup" ∧
    (AzureAgent.get_params_from_args none argStorageAccount
        rgNames).does_exist = false ∧
    AzureAgent.create_resource_group
        (AzureAgent.get_params_from_args none argStorageAccount
          rgNames).does_exist storageAccount existingAccts =
      [AzureAgent.SecAction.registerProvider "Microsoft.Storage",
        AzureAgent.SecAction.createGroup,
        AzureAgent.SecAction.createStorageAccount] := by
  refine ⟨fun argRG => rfl, rfl, rfl, rfl⟩

/-- Witness for C9: the account already holds a group named
`appscalegroup`, yet with no resource-group argument the flag is `false`
and the create path is taken. -/
theorem get_params_default_group_keeps_flag_false_witness :
    (AzureAgent.get_params_from_args none none
        ["appscalegroup"]).does_exist = false ∧
    (AzureAgent.get_params_from_args none none
        ["appscalegroup"]).resource_group = "appscalegroup" :=
  ⟨(get_params_default_group_keeps_flag_false ["appscalegroup"] none
      "appscalestorage" [] (by decide)).2.2.1,
    (get_params_default_group_keeps_flag_false ["appscalegroup"] none
      "appscalestorage" [] (by decide)).2.1⟩
